import Mathlib

/-!
Verification development for the junction-smoothing subsystem of
svVascularize (`svv/tree/utils/junction_smoothing.py`).

Modelling conventions:
* 3D coordinates are rational triples (`Point := ℚ × ℚ × ℚ`); the source
  compares numpy float coordinates by exact tuple equality, which rationals
  model faithfully for every input expressible without rounding.
* Euclidean distance comparisons are carried out on squared distances:
  for nonnegative `d`, `m` and factor `f`, `d ≤ f * m ↔ d^2 ≤ f^2 * m^2`,
  and `d > 0 ↔ d^2 > 0`, so the selected index sets coincide with the
  source's (`radius_factor` is a nonnegative scale factor, default 2.0).
* External library collaborators (pyvista `extract_points`,
  `smooth_taubin`, `compute_normals`, `extract_feature_edges` +
  `split_bodies`, `pv.merge`, `pymeshfix.MeshFix.repair`,
  `remesh_surface`, `extract_faces`) are parameters of the embedded
  functions: they are not code of this repository.
* Python exceptions (numpy `ValueError` on empty reductions and on
  non-broadcastable fancy-index assignment, `AttributeError`) are
  modelled with `Except String`.
-/

unseal Rat.add Rat.sub Rat.mul Rat.inv

/-- A 3D coordinate (numpy row of shape (3,)). -/
abbrev Point : Type := ℚ × ℚ × ℚ

/-- Squared Euclidean distance between two points. -/
def sqDist (p q : Point) : ℚ :=
  (p.1 - q.1) ^ 2 + (p.2.1 - q.2.1) ^ 2 + (p.2.2 - q.2.2) ^ 2

/-- A surface mesh: ordered point buffer, cell connectivity, and the
optional `hsize` attribute that the advanced pipeline reads and writes
(`none` models the attribute being absent, i.e. `hasattr` false). -/
structure Mesh where
  points : List Point
  cells : List (List Nat)
  hsize : Option ℚ := none
deriving DecidableEq, Repr

/-- One vessel record of the tree data: a proximal and a distal endpoint
(the only fields `detect_junctions` reads via `tree_data.get`). -/
structure Vessel where
  proximal : Point
  distal : Point
deriving DecidableEq, Repr

/-- The ordered sequence of vessel records (`tree_data`). -/
abbrev TreeData : Type := List Vessel

/-- One insertion into the `point_to_vessels` `defaultdict(list)`: Python
dicts keep first-insertion key order and `append` adds at the end of the
per-key list. -/
def insertEndpoint (m : List (Point × List Nat)) (p : Point) (i : Nat) :
    List (Point × List Nat) :=
  match m with
  | [] => [(p, [i])]
  | (q, l) :: rest =>
      if q = p then (q, l ++ [i]) :: rest else (q, l) :: insertEndpoint rest p i

/-- The `point_to_vessels` mapping of `detect_junctions` (lines 47-56):
for every vessel index, insert its proximal coordinate and then its
distal coordinate. -/
def pointToVessels (tree_data : TreeData) : List (Point × List Nat) :=
  tree_data.enum.foldl
    (fun m iv => insertEndpoint (insertEndpoint m iv.2.proximal iv.1) iv.2.distal iv.1)
    []

/-- `detect_junctions` (lines 17-66).  The `vessel_map`, `connectivity`
and `tolerance` parameters appear in the signature exactly as in the
source and are never read by the body.  Coordinates with more than one
associated vessel index become junctions, ids assigned sequentially in
insertion order; the second component is the junction coordinate list. -/
def detect_junctions {VM CONN : Type} (tree_data : TreeData)
    (vessel_map : VM) (connectivity : CONN) (tolerance : ℚ) :
    List (Nat × List Nat) × List Point :=
  let point_to_vessels := pointToVessels tree_data
  let js := point_to_vessels.filter (fun e => 1 < e.2.length)
  (js.enum.map (fun e => (e.1, e.2.2)), js.map (fun e => e.1))

/-- `np.mean` on a list of rationals (only invoked on nonempty lists in
`get_junction_statistics`). -/
def npMean (l : List ℚ) : ℚ :=
  l.sum / (l.length : ℚ)

/-- One step of the `defaultdict(int)` degree histogram:
`junction_types[len(vessel_list)] += 1` (lines 373-375). -/
def bumpCount (m : List (Nat × Nat)) (k : Nat) : List (Nat × Nat) :=
  match m with
  | [] => [(k, 1)]
  | (a, c) :: rest =>
      if a = k then (a, c + 1) :: rest else (a, c) :: bumpCount rest k

/-- The degree histogram over all junction degree values. -/
def countDegrees (degs : List Nat) : List (Nat × Nat) :=
  degs.foldl bumpCount []

/-- The statistics record returned by `get_junction_statistics`: a Python
dict whose `junction_coordinates` key is present only on the non-empty
branch, modelled with an `Option`. -/
structure JunctionStats where
  total_junctions : Nat
  junction_types : List (Nat × Nat)
  average_vessels_per_junction : ℚ
  junction_coordinates : Option (List Point)
deriving DecidableEq, Repr

/-- `get_junction_statistics` (lines 345-384): the zero-junction early
return (lines 365-370) omits the `junction_coordinates` key. -/
def get_junction_statistics {VM CONN : Type} (tree_data : TreeData)
    (vessel_map : VM) (connectivity : CONN) : JunctionStats :=
  let r := detect_junctions tree_data vessel_map connectivity (1 / 1000000)
  let junctions := r.1
  let junction_points := r.2
  if junctions.length = 0 then
    { total_junctions := 0
      junction_types := []
      average_vessels_per_junction := 0
      junction_coordinates := none }
  else
    { total_junctions := junctions.length
      junction_types := countDegrees (junctions.map (fun e => e.2.length))
      average_vessels_per_junction :=
        npMean (junctions.map (fun e => (e.2.length : ℚ)))
      junction_coordinates := some junction_points }

/-- The region-point-index selection of `identify_junction_regions`
(lines 90-99), recomputed verbatim at lines 197-202 of
`apply_junction_smoothing`: distances from every mesh point to the
junction point, `min_radius` the least nonzero distance (`np.min` of an
empty selection raises a `ValueError`, modelled as `Except.error`), and
the ascending index set of points within `radius_factor * min_radius`
(stated on squared distances, see the header). -/
def regionIds (mesh : Mesh) (junction_point : Point) (radius_factor : ℚ) :
    Except String (List Nat) :=
  let d2 := fun p => sqDist p junction_point
  let positives := (mesh.points.map d2).filter (fun d => 0 < d)
  match positives.min? with
  | none => .error "zero-size array to reduction operation minimum which has no identity"
  | some min2 =>
      .ok ((List.range mesh.points.length).filter
        (fun i => d2 (mesh.points.getD i (0, 0, 0)) ≤ radius_factor ^ 2 * min2))

/-- `identify_junction_regions` (lines 69-106): one region per junction
point whose selected index set is nonempty, extracted by the external
`mesh.extract_points` collaborator; an empty index set is skipped. -/
def identify_junction_regions (extractPoints : Mesh → List Nat → Mesh)
    (mesh : Mesh) (junction_points : List Point) (radius_factor : ℚ) :
    Except String (List Mesh) :=
  match junction_points with
  | [] => .ok []
  | jp :: rest => do
      let ids ← regionIds mesh jp radius_factor
      let tail ← identify_junction_regions extractPoints mesh rest radius_factor
      if 0 < ids.length then
        pure (extractPoints mesh ids :: tail)
      else
        pure tail

/-- `smooth_junction_region` (lines 109-138): regions with fewer than 4
points are returned unchanged; otherwise the external `smooth_taubin`
primitive is applied with the given iteration count and pass band. -/
def smooth_junction_region (smoothTaubin : Nat → ℚ → Mesh → Mesh)
    (region_mesh : Mesh) (iterations : Nat) (relaxation_factor : ℚ) : Mesh :=
  if region_mesh.points.length < 4 then region_mesh
  else smoothTaubin iterations relaxation_factor region_mesh

/-- Sequential in-place writes `cur[i] := v` for each pair of the list
(numpy fancy-index assignment applies updates left to right). -/
def assignList (l : List (Nat × Point)) (cur : List Point) : List Point :=
  match l with
  | [] => cur
  | (i, v) :: rest => assignList rest (cur.set i v)

/-- numpy fancy-index assignment `cur[ids] = vals` on arrays of shape
(len ids, 3) / (len vals, 3): an out-of-range index raises `IndexError`;
the value array must have exactly matching length or length one
(broadcast), otherwise numpy raises a broadcast `ValueError`. -/
def npAssign (cur : List Point) (ids : List Nat) (vals : List Point) :
    Except String (List Point) :=
  if ids.any (fun i => cur.length ≤ i) then
    .error "index out of bounds"
  else if vals.length = ids.length then
    .ok (assignList (ids.zip vals) cur)
  else if vals.length = 1 then
    .ok (assignList (ids.map (fun i => (i, vals.headD ((0 : ℚ), 0, 0)))) cur)
  else
    .error "could not broadcast input array"

/-- The per-region update loop of `apply_junction_smoothing`
(lines 185-206), acting on the copied mesh's point buffer `cur`:
`i` enumerates the region list, `junction_points[i]` is re-read by
position, the region index set is recomputed from the original mesh, and
the first `len(smoothed_region.points)` of those indices are assigned
the smoothed region's points. -/
def smoothing_loop (smoothTaubin : Nat → ℚ → Mesh → Mesh) (mesh : Mesh)
    (junction_points : List Point) (radius_factor : ℚ) (iterations : Nat)
    (relaxation_factor : ℚ) (regions : List Mesh) (i : Nat)
    (cur : List Point) : Except String (List Point) :=
  match regions with
  | [] => .ok cur
  | region :: rest =>
      if 0 < region.points.length then
        let smoothed_region :=
          smooth_junction_region smoothTaubin region iterations relaxation_factor
        match regionIds mesh (junction_points.getD i (0, 0, 0)) radius_factor with
        | .error e => .error e
        | .ok region_point_ids =>
            if 0 < region_point_ids.length ∧ 0 < smoothed_region.points.length then
              match npAssign cur (region_point_ids.take smoothed_region.points.length)
                  smoothed_region.points with
              | .error e => .error e
              | .ok cur2 =>
                  smoothing_loop smoothTaubin mesh junction_points radius_factor
                    iterations relaxation_factor rest (i + 1) cur2
            else
              smoothing_loop smoothTaubin mesh junction_points radius_factor
                iterations relaxation_factor rest (i + 1) cur
      else
        smoothing_loop smoothTaubin mesh junction_points radius_factor
          iterations relaxation_factor rest (i + 1) cur

/-- `apply_junction_smoothing` (lines 141-216).  External collaborators
(`extract_points`, `smooth_taubin`, `compute_normals`,
`pymeshfix.MeshFix(...).repair()` composed into one mesh-to-mesh map)
are parameters.  Returns the printed diagnostics together with either
the resulting mesh or the uncaught Python exception. -/
def apply_junction_smoothing {VM CONN : Type}
    (extractPoints : Mesh → List Nat → Mesh)
    (smoothTaubin : Nat → ℚ → Mesh → Mesh)
    (computeNormals : Mesh → Mesh) (meshfixRepair : Mesh → Mesh)
    (mesh : Mesh) (tree_data : TreeData) (vessel_map : VM)
    (connectivity : CONN) (smoothing_radius_factor : ℚ)
    (smoothing_iterations : Nat) (relaxation_factor : ℚ) :
    List String × Except String Mesh :=
  let r := detect_junctions tree_data vessel_map connectivity (1 / 1000000)
  let junction_points := r.2
  if junction_points.length = 0 then
    (["No junctions detected for smoothing."], .ok mesh)
  else
    let log := ["Detected " ++ toString junction_points.length ++
      " junctions for smoothing."]
    match identify_junction_regions extractPoints mesh junction_points
        smoothing_radius_factor with
    | .error e => (log, .error e)
    | .ok junction_regions =>
        match smoothing_loop smoothTaubin mesh junction_points
            smoothing_radius_factor smoothing_iterations relaxation_factor
            junction_regions 0 mesh.points with
        | .error e => (log, .error e)
        | .ok pts =>
            let smoothed_mesh := computeNormals { mesh with points := pts }
            (log, .ok (meshfixRepair smoothed_mesh))

/-- `hsize = mesh.hsize if hasattr(mesh, 'hsize') else 0.1` resolution
performed inside the cap loop (lines 298-299) when the caller passed no
`hsize`. -/
def resolveHsize (hsize mesh_hsize : Option ℚ) : ℚ :=
  match hsize with
  | some h => h
  | none =>
      match mesh_hsize with
      | some hm => hm
      | none => (1 / 10 : ℚ)

/-- The cap produced for one boundary loop (lines 310-326): a loop with
fewer than 3 points is kept verbatim; otherwise the external remesher
is tried, and on failure the original boundary surface is kept. -/
def capOf (remeshSurface : Mesh → ℚ → Except String Mesh) (h : ℚ)
    (boundary : Mesh) : Mesh :=
  if boundary.points.length < 3 then boundary
  else
    match remeshSurface boundary h with
    | .ok cap => cap
    | .error _ => boundary

/-- The cap-generation loop of `smooth_junctions_advanced`
(lines 296-326), threading the local `hsize` variable that is resolved on
the first iteration and reused afterwards; returns the cap list and the
final value of `hsize` (assigned to the merged mesh at line 332). -/
def capLoop (remeshSurface : Mesh → ℚ → Except String Mesh)
    (boundaries : List Mesh) (hsize mesh_hsize : Option ℚ) :
    List Mesh × Option ℚ :=
  match boundaries with
  | [] => ([], hsize)
  | boundary :: rest =>
      let h := resolveHsize hsize mesh_hsize
      let cap := capOf remeshSurface h boundary
      let t := capLoop remeshSurface rest (some h) mesh_hsize
      (cap :: t.1, t.2)

/-- `smooth_junctions_advanced` (lines 219-342).  External collaborators
(`extract_faces`, `smooth_taubin`, boundary-loop extraction
(`extract_feature_edges` + `split_bodies` + the PolyData conversion),
`remesh_surface`, `pv.merge`) are parameters.  Every caught exception
degrades to returning the input mesh; the multi-wall branch's merge and
its unguarded `mesh.hsize` read (lines 340-341) can still raise. -/
def smooth_junctions_advanced {VM CONN : Type}
    (extractFaces : Mesh → Except String (List Mesh × List Mesh × List Mesh × List Mesh))
    (smoothTaubin : Nat → ℚ → Mesh → Mesh)
    (boundaryLoops : Mesh → List Mesh)
    (remeshSurface : Mesh → ℚ → Except String Mesh)
    (mergeMeshes : List Mesh → Except String Mesh)
    (mesh : Mesh) (tree_data : TreeData) (vessel_map : VM)
    (connectivity : CONN) (hsize : Option ℚ) (cap_resolution : Nat) :
    List String × Except String Mesh :=
  let r := detect_junctions tree_data vessel_map connectivity (1 / 1000000)
  let junction_points := r.2
  if junction_points.length = 0 then
    (["No junctions detected for smoothing."], .ok mesh)
  else
    let log := ["Detected " ++ toString junction_points.length ++
      " junctions for smoothing."]
    match extractFaces mesh with
    | .error e =>
        (log ++ ["Warning: Face extraction failed: " ++ e,
          "Returning original mesh without smoothing."], .ok mesh)
    | .ok (_faces, walls, _caps, _shared) =>
        if walls.length = 0 then
          (log ++ ["No wall faces found for smoothing."], .ok mesh)
        else
          let smoothed_walls := walls.map (fun w => smoothTaubin 10 (1 / 10) w)
          if smoothed_walls.length = 1 then
            let smoothed_mesh := smoothed_walls.headD mesh
            let boundaries := boundaryLoops smoothed_mesh
            let capsRes := capLoop remeshSurface boundaries hsize mesh.hsize
            match mergeMeshes (smoothed_mesh :: capsRes.1) with
            | .ok m => (log, .ok { m with hsize := capsRes.2 })
            | .error e =>
                (log ++ ["Warning: Failed to merge smoothed mesh: " ++ e,
                  "Returning original mesh without smoothing."], .ok mesh)
          else
            match mergeMeshes smoothed_walls with
            | .error e => (log, .error e)
            | .ok m =>
                match hsize with
                | some h2 => (log, .ok { m with hsize := some h2 })
                | none =>
                    match mesh.hsize with
                    | some h2 => (log, .ok { m with hsize := some h2 })
                    | none => (log, .error "AttributeError: hsize")

deriving instance DecidableEq for Except

/-- Concrete two-vessel tree whose shared proximal coordinate forms one
junction of degree 2. -/
def cexTree : TreeData := [⟨(0, 0, 0), (1, 0, 0)⟩, ⟨(0, 0, 0), (2, 0, 0)⟩]

/-- Concrete two-point mesh used as the smoothing input. -/
def cexMesh : Mesh := ⟨[(0, 0, 0), (1, 0, 0)], [[0, 1]], none⟩

/-- Concrete three-point mesh whose junction region selects indices 0, 1. -/
def cexMesh3 : Mesh := ⟨[(0, 0, 0), (1, 0, 0), (5, 0, 0)], [[0, 1, 2]], none⟩

/-- Mesh whose single point coincides exactly with the junction
coordinate (the degenerate geometry of the region isolator). -/
def degenerateMesh : Mesh := ⟨[(0, 0, 0)], [[0]], none⟩

/-- Wall patch used by the advanced-pipeline scenario. -/
def advWall : Mesh := ⟨[(9, 9, 9)], [], none⟩

/-- A three-point boundary loop on which the remesher fails. -/
def advLoopFail : Mesh := ⟨[(0, 0, 0), (1, 0, 0), (0, 1, 0)], [[0, 1, 2]], none⟩

/-- A three-point boundary loop on which the remesher succeeds. -/
def advLoopOk : Mesh := ⟨[(2, 0, 0), (3, 0, 0), (2, 1, 0)], [[0, 1, 2]], none⟩

/-- The cap produced by the successful remesh. -/
def advCap : Mesh := ⟨[(7, 7, 7)], [], none⟩

/-- A remesher that fails on `advLoopFail` and succeeds elsewhere. -/
def advRemesh : Mesh → ℚ → Except String Mesh :=
  fun b _ => if b = advLoopFail then .error "remesh failed" else .ok advCap

theorem assignList_length (l : List (Nat × Point)) (cur : List Point) :
    (assignList l cur).length = cur.length := by
  induction l generalizing cur with
  | nil => rfl
  | cons hd tl ih =>
      obtain ⟨i, v⟩ := hd
      rw [assignList, ih, List.length_set]

theorem assignList_getElem?_not_mem (l : List (Nat × Point)) (cur : List Point)
    (j : Nat) (h : ∀ pr ∈ l, pr.1 ≠ j) : (assignList l cur)[j]? = cur[j]? := by
  induction l generalizing cur with
  | nil => rfl
  | cons hd tl ih =>
      obtain ⟨i, v⟩ := hd
      rw [assignList, ih _ (fun pr hpr => h pr (List.mem_cons_of_mem _ hpr))]
      exact List.getElem?_set_ne (h (i, v) (List.mem_cons_self _ _))

theorem assignList_getElem?_mem (l : List (Nat × Point)) (cur : List Point)
    (i : Nat) (v : Point) (hmem : (i, v) ∈ l) (hnd : (l.map Prod.fst).Nodup)
    (hlt : i < cur.length) : (assignList l cur)[i]? = some v := by
  induction l generalizing cur with
  | nil => cases hmem
  | cons hd tl ih =>
      obtain ⟨a, w⟩ := hd
      have hnd2 : a ∉ List.map Prod.fst tl ∧ (List.map Prod.fst tl).Nodup := by
        rw [List.map_cons] at hnd
        exact List.nodup_cons.mp hnd
      rcases List.mem_cons.mp hmem with heq | hmem2
      · injection heq with h1 h2
        subst h1; subst h2
        rw [assignList]
        rw [assignList_getElem?_not_mem]
        · exact List.getElem?_set_eq hlt
        · intro pr hpr hne
          exact hnd2.1 (by rw [← hne]; exact List.mem_map_of_mem Prod.fst hpr)
      · rw [assignList]
        exact ih _ hmem2 hnd2.2 (by rw [List.length_set]; exact hlt)

theorem npAssign_length (cur : List Point) (ids : List Nat) (vals : List Point)
    (r : List Point) (h : npAssign cur ids vals = Except.ok r) :
    r.length = cur.length := by
  unfold npAssign at h
  split at h
  · cases h
  · split at h
    · cases h; exact assignList_length ..
    · split at h
      · cases h; exact assignList_length ..
      · cases h

theorem regionIds_nodup (mesh : Mesh) (jp : Point) (f : ℚ) (ids : List Nat)
    (h : regionIds mesh jp f = Except.ok ids) : ids.Nodup := by
  simp only [regionIds] at h
  split at h
  · cases h
  · cases h
    exact List.Nodup.sublist (List.filter_sublist _) (List.nodup_range _)

theorem regionIds_mem_lt (mesh : Mesh) (jp : Point) (f : ℚ) (ids : List Nat)
    (h : regionIds mesh jp f = Except.ok ids) :
    ∀ i ∈ ids, i < mesh.points.length := by
  simp only [regionIds] at h
  split at h
  · cases h
  · cases h
    intro i hi
    exact List.mem_range.mp (List.mem_filter.mp hi).1

theorem npAssign_ok_of_le (cur : List Point) (ids : List Nat) (vals : List Point)
    (hlt : ∀ i ∈ ids, i < cur.length) (hle : vals.length ≤ ids.length) :
    npAssign cur (ids.take vals.length) vals =
      Except.ok (assignList ((ids.take vals.length).zip vals) cur) := by
  unfold npAssign
  rw [if_neg, if_pos]
  · rw [List.length_take]
    exact (Nat.min_eq_left hle).symm
  · intro hany
    obtain ⟨i, hi, hcond⟩ := List.any_eq_true.mp hany
    simp only [decide_eq_true_eq] at hcond
    have := hlt i ((List.take_sublist _ _).subset hi)
    omega

theorem smoothing_loop_length (smoothTaubin : Nat → ℚ → Mesh → Mesh) (mesh : Mesh)
    (junction_points : List Point) (radius_factor : ℚ) (iterations : Nat)
    (relaxation_factor : ℚ) (regions : List Mesh) :
    ∀ i cur r, smoothing_loop smoothTaubin mesh junction_points radius_factor
      iterations relaxation_factor regions i cur = Except.ok r →
      r.length = cur.length := by
  induction regions with
  | nil =>
      intro i cur r h
      cases h
      rfl
  | cons region rest ih =>
      intro i cur r h
      simp only [smoothing_loop] at h
      split at h
      · split at h
        · cases h
        · split at h
          · split at h
            · cases h
            · rename_i hnp
              rw [ih _ _ _ h]
              exact npAssign_length _ _ _ _ hnp
          · exact ih _ _ _ h
      · exact ih _ _ _ h

theorem capLoop_eq (remeshSurface : Mesh → ℚ → Except String Mesh)
    (boundaries : List Mesh) (hsize mesh_hsize : Option ℚ) :
    capLoop remeshSurface boundaries hsize mesh_hsize =
      (boundaries.map (capOf remeshSurface (resolveHsize hsize mesh_hsize)),
       if boundaries.isEmpty then hsize
       else some (resolveHsize hsize mesh_hsize)) := by
  induction boundaries generalizing hsize with
  | nil => rfl
  | cons b rest ih =>
      rw [capLoop, ih (some (resolveHsize hsize mesh_hsize))]
      simp only [List.map_cons, List.isEmpty_cons, resolveHsize, ite_self]
      rfl

theorem bumpCount_sum (m : List (Nat × Nat)) (k : Nat) :
    ((bumpCount m k).map (fun e => e.2)).sum = ((m.map (fun e => e.2)).sum) + 1 := by
  induction m with
  | nil => rfl
  | cons hd tl ih =>
      obtain ⟨a, c⟩ := hd
      by_cases h : a = k
      · simp [bumpCount, h]
        omega
      · simp [bumpCount, h, ih]
        omega

theorem countDegrees_sum (degs : List Nat) :
    ((countDegrees degs).map (fun e => e.2)).sum = degs.length := by
  suffices hgen : ∀ m : List (Nat × Nat),
      ((degs.foldl bumpCount m).map (fun e => e.2)).sum =
        ((m.map (fun e => e.2)).sum) + degs.length by
    simpa using hgen []
  induction degs with
  | nil =>
      intro m
      simp
  | cons d tl ih =>
      intro m
      simp only [List.foldl_cons, List.length_cons, ih (bumpCount m d), bumpCount_sum]
      omega

/-- C4: for every vessel set and every pair of tolerance values,
`detect_junctions` returns identical junction maps and identical junction
coordinate arrays — the tolerance argument has no effect and endpoint
matching is exact equality on coordinate tuples. -/
theorem detect_junctions_tolerance_irrelevant {VM CONN : Type}
    (tree_data : TreeData) (vessel_map : VM) (connectivity : CONN)
    (t1 t2 : ℚ) :
    detect_junctions tree_data vessel_map connectivity t1 =
      detect_junctions tree_data vessel_map connectivity t2 := rfl

/-- C10: for every `tree_data` and any two values of each of the
`vessel_map` and `connectivity` arguments (even of different types),
`detect_junctions` returns identical results — it is a function of
`tree_data` alone. -/
theorem detect_junctions_ignores_map_and_connectivity
    {VM1 VM2 CONN1 CONN2 : Type} (tree_data : TreeData)
    (vm1 : VM1) (vm2 : VM2) (c1 : CONN1) (c2 : CONN2) (tol : ℚ) :
    detect_junctions tree_data vm1 c1 tol =
      detect_junctions tree_data vm2 c2 tol := rfl

/-- C5: every junction emitted by `detect_junctions` has degree at least
2, and every emitted junction coordinate comes from a `point_to_vessels`
entry with at least two endpoint insertions. -/
theorem detect_junctions_degree_ge_two {VM CONN : Type}
    (tree_data : TreeData) (vessel_map : VM) (connectivity : CONN)
    (tol : ℚ) :
    (∀ e ∈ (detect_junctions tree_data vessel_map connectivity tol).1,
      2 ≤ e.2.length) ∧
    (∀ p ∈ (detect_junctions tree_data vessel_map connectivity tol).2,
      ∃ l, (p, l) ∈ pointToVessels tree_data ∧ 2 ≤ l.length) := by
  constructor
  · intro e he
    simp only [detect_junctions] at he
    obtain ⟨pre, hpre, heq⟩ := List.mem_map.mp he
    obtain ⟨i, pr⟩ := pre
    rw [List.enum_eq_zip_range] at hpre
    have hmem : pr ∈ (pointToVessels tree_data).filter (fun e => 1 < e.2.length) :=
      (List.of_mem_zip hpre).2
    have hlen : 1 < pr.2.length := by
      simpa using (List.mem_filter.mp hmem).2
    subst heq
    exact hlen
  · intro p hp
    simp only [detect_junctions] at hp
    obtain ⟨e, he, heq⟩ := List.mem_map.mp hp
    have hlen : 1 < e.2.length := by
      simpa using (List.mem_filter.mp he).2
    subst heq
    exact ⟨e.2, (List.mem_filter.mp he).1, hlen⟩

/-- C5 witness: the concrete two-vessel tree sharing one proximal
coordinate yields the junction entry `(0, [0, 1])`, whose degree is at
least 2. -/
theorem detect_junctions_degree_ge_two_witness :
    2 ≤ ([0, 1] : List Nat).length :=
  (detect_junctions_degree_ge_two cexTree () () (1 / 1000000)).1
    (0, [0, 1]) (by decide)

/-- C8 counterexample: on a vessel set with zero junctions the record
returned by `get_junction_statistics` does not contain the junction
coordinate array (the zero-junction early return omits the key). -/
theorem get_junction_statistics_coords_missing_cex :
    (get_junction_statistics ([] : TreeData) () ()).junction_coordinates = none ∧
    (detect_junctions ([] : TreeData) () () (1 / 1000000)).1.length = 0 := by
  decide

/-- C8 (amended): the record returned by `get_junction_statistics`
contains the junction coordinate array exactly when at least one junction
exists; with zero junctions the record omits it (while still containing
the total count, degree histogram and mean degree fields). -/
theorem get_junction_statistics_coords_iff {VM CONN : Type}
    (tree_data : TreeData) (vessel_map : VM) (connectivity : CONN) :
    (get_junction_statistics tree_data vessel_map connectivity).junction_coordinates =
      (if (detect_junctions tree_data vessel_map connectivity (1 / 1000000)).1.length = 0
       then none
       else some (detect_junctions tree_data vessel_map connectivity (1 / 1000000)).2) := by
  simp only [get_junction_statistics]
  split
  · rfl
  · rfl

/-- C7: `average_vessels_per_junction` is 0 for zero junctions and the
arithmetic mean (sum of degrees over number of junctions) otherwise, and
the values of the `junction_types` histogram sum to `total_junctions`. -/
theorem get_junction_statistics_mean_and_histogram {VM CONN : Type}
    (tree_data : TreeData) (vessel_map : VM) (connectivity : CONN) :
    (get_junction_statistics tree_data vessel_map connectivity).average_vessels_per_junction =
      (if (detect_junctions tree_data vessel_map connectivity (1 / 1000000)).1.length = 0
       then 0
       else (((detect_junctions tree_data vessel_map connectivity (1 / 1000000)).1.map
              (fun e => (e.2.length : ℚ))).sum) /
            (((detect_junctions tree_data vessel_map connectivity (1 / 1000000)).1.length : ℚ))) ∧
    (((get_junction_statistics tree_data vessel_map connectivity).junction_types.map
        (fun e => e.2)).sum =
      (get_junction_statistics tree_data vessel_map connectivity).total_junctions) := by
  constructor
  · simp only [get_junction_statistics]
    split
    · simp_all
    · simp [npMean]
  · simp only [get_junction_statistics]
    split
    · rfl
    · simpa using countDegrees_sum
        ((detect_junctions tree_data vessel_map connectivity (1 / 1000000)).1.map
          (fun e => e.2.length))

/-- C3: evaluating `identify_junction_regions` at the degenerate input in
which every mesh point coincides exactly with the junction coordinate:
the `np.min` over the empty nonzero-distance selection raises a
`ValueError` instead of skipping the junction. -/
theorem identify_junction_regions_degenerate_failure :
    identify_junction_regions (fun _ _ => (⟨[], [], none⟩ : Mesh))
      degenerateMesh [((0 : ℚ), 0, 0)] 2 =
      Except.error "zero-size array to reduction operation minimum which has no identity" := by
  decide

/-- C6: whenever `detect_junctions` finds zero junctions for the vessel
set, `apply_junction_smoothing` returns the original input mesh
unchanged (the very same mesh value, points, cells and attributes) and
emits the diagnostic notice, not an error. -/
theorem apply_junction_smoothing_no_junctions {VM CONN : Type}
    (extractPoints : Mesh → List Nat → Mesh)
    (smoothTaubin : Nat → ℚ → Mesh → Mesh)
    (computeNormals meshfixRepair : Mesh → Mesh) (mesh : Mesh)
    (tree_data : TreeData) (vessel_map : VM) (connectivity : CONN)
    (smoothing_radius_factor : ℚ) (smoothing_iterations : Nat)
    (relaxation_factor : ℚ)
    (hz : (detect_junctions tree_data vessel_map connectivity (1 / 1000000)).2.length = 0) :
    apply_junction_smoothing extractPoints smoothTaubin computeNormals
      meshfixRepair mesh tree_data vessel_map connectivity
      smoothing_radius_factor smoothing_iterations relaxation_factor =
      (["No junctions detected for smoothing."], Except.ok mesh) := by
  simp only [apply_junction_smoothing]
  rw [if_pos hz]

/-- C6 witness: the empty vessel set yields zero junctions, and the
concrete call returns the input mesh with the diagnostic notice. -/
theorem apply_junction_smoothing_no_junctions_witness :
    apply_junction_smoothing (fun _ _ => (⟨[], [], none⟩ : Mesh))
      (fun _ _ m => m) id id cexMesh ([] : TreeData) () () 2 5 (1 / 10) =
      (["No junctions detected for smoothing."], Except.ok cexMesh) :=
  apply_junction_smoothing_no_junctions _ _ _ _ _ _ _ _ _ _ _ (by decide)

/-- C2 (amended): inside `apply_junction_smoothing`, when the smoothed
region has at most as many points as the recomputed region index set,
the point-buffer assignment succeeds and overwrites exactly the first
`min(len(region_indices), len(smoothed_region_points))` (here
`= len(smoothed_region_points)`) entries of that index set with the
smoothed region's coordinates in order, leaving every other point entry
unchanged.  (When the smoothed region has strictly more points than the
nonempty index set, the assignment instead raises a numpy broadcast
error — see the counterexample — so no overwrite takes place.) -/
theorem apply_junction_smoothing_overwrite_first_min
    (mesh : Mesh) (junction_point : Point) (radius_factor : ℚ)
    (cur : List Point) (ids : List Nat) (vals r : List Point)
    (hids : regionIds mesh junction_point radius_factor = Except.ok ids)
    (hcur : cur.length = mesh.points.length)
    (hle : vals.length ≤ ids.length)
    (hr : npAssign cur (ids.take vals.length) vals = Except.ok r) :
    r.length = cur.length ∧
    (∀ t, t < vals.length → r[ids.getD t 0]? = vals[t]?) ∧
    (∀ j, j ∉ ids.take vals.length → r[j]? = cur[j]?) := by
  have hnd : ids.Nodup := regionIds_nodup mesh junction_point radius_factor ids hids
  have hlt : ∀ i ∈ ids, i < cur.length := fun i hi =>
    hcur ▸ regionIds_mem_lt mesh junction_point radius_factor ids hids i hi
  rw [npAssign_ok_of_le cur ids vals hlt hle] at hr
  cases hr
  refine ⟨assignList_length .., ?_, ?_⟩
  · intro t ht
    have htid : t < ids.length := lt_of_lt_of_le ht hle
    have htk : t < (ids.take vals.length).length := by
      rw [List.length_take]
      omega
    have hzl : t < ((ids.take vals.length).zip vals).length := by
      rw [List.length_zip, List.length_take]
      omega
    have hpair : (ids[t], vals[t]) ∈ (ids.take vals.length).zip vals := by
      have h1 : ((ids.take vals.length).zip vals)[t] =
          ((ids.take vals.length)[t], vals[t]) := List.getElem_zip
      have h2 : (ids.take vals.length)[t] = ids[t] := List.getElem_take ..
      rw [← h2, ← h1]
      exact List.getElem_mem hzl
    have hfst : (((ids.take vals.length).zip vals).map Prod.fst).Nodup := by
      rw [List.map_fst_zip _ _ (by rw [List.length_take]; omega)]
      exact List.Nodup.sublist (List.take_sublist _ _) hnd
    have hltb : ids[t] < cur.length := hlt _ (List.getElem_mem htid)
    have hgd : ids.getD t 0 = ids[t] := by
      rw [List.getD_eq_getElem?_getD, List.getElem?_eq_getElem htid]
      rfl
    rw [hgd, assignList_getElem?_mem _ _ _ _ hpair hfst hltb,
      List.getElem?_eq_getElem ht]
  · intro j hj
    apply assignList_getElem?_not_mem
    intro pr hpr
    obtain ⟨a, b⟩ := pr
    intro hne
    exact hj (hne ▸ (List.of_mem_zip hpr).1)

/-- C2 witness: on the concrete two-point mesh, with one smoothed-region
point and two region indices, the first `min(2, 1) = 1` index receives
the smoothed coordinate. -/
theorem apply_junction_smoothing_overwrite_first_min_witness :
    ([((5 : ℚ), 5, 5), (1, 0, 0)] : List Point)[(([0, 1] : List Nat).getD 0 0)]? =
      ([((5 : ℚ), 5, 5)] : List Point)[(0 : Nat)]? :=
  (apply_junction_smoothing_overwrite_first_min cexMesh ((0 : ℚ), 0, 0) 2
    [((0 : ℚ), 0, 0), (1, 0, 0)] [0, 1] [((5 : ℚ), 5, 5)]
    [((5 : ℚ), 5, 5), (1, 0, 0)]
    (by decide) (by decide) (by decide) (by decide)).2.1 0 (by decide)

/-- C2 counterexample: when the smoothed region has more points (3) than
the recomputed region index set (2), no entries are overwritten at all:
the numpy fancy-index assignment raises a broadcast `ValueError`, which
propagates out of `apply_junction_smoothing`. -/
theorem apply_junction_smoothing_overwrite_cex :
    (apply_junction_smoothing
        (fun _ _ => (⟨[(0, 0, 0), (1, 0, 0), (2, 0, 0)], [], none⟩ : Mesh))
        (fun _ _ m => m) id id cexMesh3 cexTree () () 2 5 (1 / 10)).2 =
      Except.error "could not broadcast input array" ∧
    regionIds cexMesh3 ((0 : ℚ), 0, 0) 2 = Except.ok [0, 1] := by
  decide

/-- C1 (amended): whenever the external normals and repair collaborators
preserve the cell list and the point count, and `apply_junction_smoothing`
returns a mesh (raises no exception) on an input with at least one
detected junction, the returned mesh has exactly the input mesh's cell
list and point count — only point coordinates differ.  (Unconditionally,
the reassembly phase itself writes only into the copied point buffer and
never touches the cells; the final topology depends on the external
`compute_normals` and `pymeshfix` repair collaborators — see the
counterexample.) -/
theorem apply_junction_smoothing_preserves_topology {VM CONN : Type}
    (extractPoints : Mesh → List Nat → Mesh)
    (smoothTaubin : Nat → ℚ → Mesh → Mesh)
    (computeNormals meshfixRepair : Mesh → Mesh) (mesh : Mesh)
    (tree_data : TreeData) (vessel_map : VM) (connectivity : CONN)
    (smoothing_radius_factor : ℚ) (smoothing_iterations : Nat)
    (relaxation_factor : ℚ) (out : Mesh)
    (hJ : 0 < (detect_junctions tree_data vessel_map connectivity (1 / 1000000)).2.length)
    (hN : ∀ m, (computeNormals m).cells = m.cells ∧
      (computeNormals m).points.length = m.points.length)
    (hR : ∀ m, (meshfixRepair m).cells = m.cells ∧
      (meshfixRepair m).points.length = m.points.length)
    (hok : (apply_junction_smoothing extractPoints smoothTaubin computeNormals
        meshfixRepair mesh tree_data vessel_map connectivity
        smoothing_radius_factor smoothing_iterations relaxation_factor).2 =
      Except.ok out) :
    out.cells = mesh.cells ∧ out.points.length = mesh.points.length := by
  simp only [apply_junction_smoothing] at hok
  split at hok
  · simp only [Except.ok.injEq] at hok
    subst hok
    exact ⟨rfl, rfl⟩
  · split at hok
    · simp at hok
    · split at hok
      · simp at hok
      · rename_i pts hloop
        simp only [Except.ok.injEq] at hok
        subst hok
        refine ⟨?_, ?_⟩
        · rw [(hR _).1, (hN _).1]
        · rw [(hR _).2, (hN _).2]
          exact smoothing_loop_length _ _ _ _ _ _ _ _ _ _ hloop

/-- C1 witness: with identity normals and repair collaborators, the
concrete one-junction call returns a mesh with the input's cells and
point count. -/
theorem apply_junction_smoothing_preserves_topology_witness :
    cexMesh.cells = cexMesh.cells ∧
    cexMesh.points.length = cexMesh.points.length :=
  apply_junction_smoothing_preserves_topology
    (fun _ _ => (⟨[], [], none⟩ : Mesh)) (fun _ _ m => m) id id cexMesh
    cexTree () () 2 5 (1 / 10) cexMesh
    (by decide) (fun _ => ⟨rfl, rfl⟩) (fun _ => ⟨rfl, rfl⟩) (by decide)

/-- C1 counterexample: with a repair collaborator that rebuilds the
triangulation (returning an empty cell list), `apply_junction_smoothing`
on a one-junction input returns a mesh whose cell list differs from the
input's, so the topology is not preserved by the function as a whole. -/
theorem apply_junction_smoothing_topology_cex :
    (apply_junction_smoothing (fun _ _ => (⟨[], [], none⟩ : Mesh))
        (fun _ _ m => m) id (fun m => ⟨m.points, [], none⟩) cexMesh cexTree
        () () 2 5 (1 / 10)).2 =
      Except.ok ⟨[(0, 0, 0), (1, 0, 0)], [], none⟩ ∧
    cexMesh.cells = [[0, 1]] ∧
    0 < (detect_junctions cexTree () () (1 / 1000000)).2.length := by
  decide

/-- C9: on a single-wall mesh, the advanced pipeline reaches the merge
with the smoothed wall followed by one cap per boundary loop; a loop on
which the remesher fails contributes its original (non-remeshed)
boundary surface, while every loop on which the remesher succeeds
contributes the remeshed cap, and the pipeline returns the merged mesh
rather than aborting. -/
theorem smooth_junctions_advanced_isolates_remesh_failure {VM CONN : Type}
    (extractFaces : Mesh → Except String (List Mesh × List Mesh × List Mesh × List Mesh))
    (smoothTaubin : Nat → ℚ → Mesh → Mesh) (boundaryLoops : Mesh → List Mesh)
    (remeshSurface : Mesh → ℚ → Except String Mesh)
    (mergeMeshes : List Mesh → Except String Mesh)
    (mesh : Mesh) (tree_data : TreeData) (vessel_map : VM)
    (connectivity : CONN) (hsize : Option ℚ) (cap_resolution : Nat)
    (fs cs sb : List Mesh) (w m : Mesh)
    (hj : (detect_junctions tree_data vessel_map connectivity (1 / 1000000)).2.length ≠ 0)
    (hEF : extractFaces mesh = Except.ok (fs, [w], cs, sb))
    (hMG : mergeMeshes (smoothTaubin 10 (1 / 10) w ::
        (boundaryLoops (smoothTaubin 10 (1 / 10) w)).map
          (capOf remeshSurface (resolveHsize hsize mesh.hsize))) = Except.ok m) :
    (smooth_junctions_advanced extractFaces smoothTaubin boundaryLoops
        remeshSurface mergeMeshes mesh tree_data vessel_map connectivity
        hsize cap_resolution).2 =
      Except.ok { m with hsize :=
        (if (boundaryLoops (smoothTaubin 10 (1 / 10) w)).isEmpty then hsize
         else some (resolveHsize hsize mesh.hsize)) } ∧
    (∀ b ∈ boundaryLoops (smoothTaubin 10 (1 / 10) w), ∀ e,
      3 ≤ b.points.length →
      remeshSurface b (resolveHsize hsize mesh.hsize) = Except.error e →
      capOf remeshSurface (resolveHsize hsize mesh.hsize) b = b) ∧
    (∀ b ∈ boundaryLoops (smoothTaubin 10 (1 / 10) w), ∀ c,
      3 ≤ b.points.length →
      remeshSurface b (resolveHsize hsize mesh.hsize) = Except.ok c →
      capOf remeshSurface (resolveHsize hsize mesh.hsize) b = c) := by
  refine ⟨?_, ?_, ?_⟩
  · simp only [smooth_junctions_advanced]
    rw [if_neg hj, hEF]
    simp only [List.length_cons, List.length_nil, List.map_cons, List.map_nil,
      List.headD_cons, capLoop_eq, if_true]
    rw [hMG, if_neg (by omega : ¬(0 + 1 = 0))]
  · intro b _ e h3 herr
    simp only [capOf]
    rw [if_neg (by omega), herr]
  · intro b _ c h3 hok2
    simp only [capOf]
    rw [if_neg (by omega), hok2]

/-- C9 witness: a concrete single-wall run with two three-point boundary
loops, the remesher failing on the first and succeeding on the second,
still returns the merged mesh (with the resolved default element size)
instead of aborting. -/
theorem smooth_junctions_advanced_isolates_remesh_failure_witness :
    (smooth_junctions_advanced (fun _ => Except.ok ([], [advWall], [], []))
        (fun _ _ mm => mm) (fun _ => [advLoopFail, advLoopOk]) advRemesh
        (fun _ => Except.ok (⟨[], [], none⟩ : Mesh)) cexMesh cexTree () ()
        none 40).2 =
      Except.ok ⟨[], [], some (1 / 10)⟩ :=
  (smooth_junctions_advanced_isolates_remesh_failure
    (fun _ => Except.ok ([], [advWall], [], [])) (fun _ _ mm => mm)
    (fun _ => [advLoopFail, advLoopOk]) advRemesh
    (fun _ => Except.ok (⟨[], [], none⟩ : Mesh)) cexMesh cexTree () () none 40
    [] [] [] advWall ⟨[], [], none⟩ (by decide) rfl rfl).1
